import Mathlib

/-!
# ComputerViewContainer: a shallow embedding

Source: `peony-qt-extension-computer-view/computer-view-container.cpp`.

The widget is event-wiring glue, so the embedding is a state record for the
container plus one function per handler.  Every handler appends the externally
visible actions it performs (signals emitted to the host window, calls on
items, dialogs, processes, GIO requests) to an effect log held in the state.
`qDebug` output is not part of the log, and neither is the forwarding of the
selection model's `selectionChanged` signal.  Handlers that dereference
`m_view` are modelled on a container that has a view.

Library types the source names are modelled by the documented behaviour of the
members the source uses: `QString` (null versus empty), `QModelIndex`,
`QItemSelectionModel` (committed ranges plus the current selection, and the
selection flags), `QObject::connect` on a `QDialog`, `QMenu`/`QAction`.
-/

namespace Peony

/-! ## QString -/

/-- Qt string. `QString()` is the null string; a string built from characters
(also from zero characters, `QString("")`) is not null. -/
inductive QString where
  | null : QString
  | str (s : String) : QString
  deriving DecidableEq

/-- Member `QString::isNull`: true only for the null string. -/
def QString.isNull : QString → Bool
  | .null => true
  | .str _ => false

/-- Member `QString::isEmpty`: true when the string has no characters, which covers
the null string and `QString("")`. -/
def QString.isEmpty : QString → Bool
  | .null => true
  | .str s => s.length == 0

/-- Chain `QString::toUtf8().constData()`: the characters as a C string; the null
string gives the empty C string. -/
def QString.toUtf8 : QString → String
  | .null => ""
  | .str s => s

/-! ## Model indexes -/

/-- Qt model index: row, column, internal id and model pointer (`none` is
`nullptr`). -/
structure QModelIndex where
  r : Int
  c : Int
  i : Nat
  m : Option Nat
  deriving DecidableEq

/-- Default-constructed index `QModelIndex()`, what `indexAt` returns on a blank
area. -/
def QModelIndex.invalid : QModelIndex := ⟨-1, -1, 0, none⟩

/-- Member `QModelIndex::isValid`: `(r >= 0) && (c >= 0) && (m != nullptr)`. -/
def QModelIndex.isValid (x : QModelIndex) : Bool :=
  decide (0 ≤ x.r) && decide (0 ≤ x.c) && x.m.isSome

/-- Member `QModelIndex::parent`: `m ? m->parent(*this) : QModelIndex()`, with the
model's `parent` function passed in. -/
def QModelIndex.parent (modelParent : QModelIndex → QModelIndex) (x : QModelIndex) :
    QModelIndex :=
  match x.m with
  | some _ => modelParent x
  | none => QModelIndex.invalid

/-! ## Selection model -/

/-- Flag set `QItemSelectionModel::SelectionFlags`, one field per bit
(`Clear` 1, `Select` 2, `Deselect` 4, `Toggle` 8, `Current` 16, `Rows` 32,
`Columns` 64). -/
structure SelectionFlags where
  clear : Bool := false
  select : Bool := false
  deselect : Bool := false
  toggle : Bool := false
  current : Bool := false
  rows : Bool := false
  columns : Bool := false
  deriving DecidableEq

/-- Flag value `QItemSelectionModel::NoUpdate` (0). -/
def SelectionFlags.NoUpdate : SelectionFlags := {}

/-- Flag value `QItemSelectionModel::Clear`. -/
def SelectionFlags.Clear : SelectionFlags := { clear := true }

/-- Flag value `QItemSelectionModel::SelectCurrent`, which is `Select | Current`. -/
def SelectionFlags.SelectCurrent : SelectionFlags := { select := true, current := true }

/-- Flag value `QItemSelectionModel::ClearAndSelect`, which is `Clear | Select`. -/
def SelectionFlags.ClearAndSelect : SelectionFlags := { clear := true, select := true }

/-- Flag value `QItemSelectionModel::Toggle`. -/
def SelectionFlags.Toggle : SelectionFlags := { toggle := true }

/-- Method `QItemSelection::merge(other, command)` on the level of indexes (a
selection is the list of the indexes its ranges cover).  Nothing happens when
`other` is empty or the command has none of Select, Deselect, Toggle.
Otherwise the invalid entries of `other` are skipped, the part of `self` that
intersects `other` is split off and removed, with Toggle the intersection is
removed from the new part too, and unless Deselect is set the new part is
appended. -/
def QItemSelection.merge (self other : List QModelIndex) (command : SelectionFlags) :
    List QModelIndex :=
  if other.isEmpty || !(command.select || command.deselect || command.toggle) then self
  else
    let newSelection := other.filter QModelIndex.isValid
    let kept := self.filter (fun x => !newSelection.contains x)
    let added :=
      if command.toggle then newSelection.filter (fun x => !self.contains x)
      else newSelection
    if command.deselect then kept else kept ++ added

/-- Selection model `QItemSelectionModel`.  Qt keeps the selection in two layers:
`ranges`, the committed selection, and `currentSelection`, the selection of the
interaction in progress, which is combined with `ranges` through
`currentCommand` whenever the selection is read. -/
structure QItemSelectionModel where
  ranges : List QModelIndex
  currentSelection : List QModelIndex
  currentCommand : SelectionFlags
  deriving DecidableEq

/-- Selection model of a freshly created view: nothing selected. -/
def QItemSelectionModel.empty : QItemSelectionModel :=
  { ranges := [], currentSelection := [], currentCommand := SelectionFlags.NoUpdate }

/-- Method `QItemSelectionModel::selectedIndexes`: the committed ranges merged with
the current selection, as a list of valid indexes.  Every valid index is taken
to carry the item flags selectable and enabled. -/
def QItemSelectionModel.selectedIndexes (sm : QItemSelectionModel) : List QModelIndex :=
  (QItemSelection.merge sm.ranges sm.currentSelection sm.currentCommand).filter
    QModelIndex.isValid

/-- Private `QItemSelectionModelPrivate::finalize`: commit the current selection
into `ranges` and empty it. -/
def QItemSelectionModel.finalize (sm : QItemSelectionModel) : QItemSelectionModel :=
  { sm with
    ranges := QItemSelection.merge sm.ranges sm.currentSelection sm.currentCommand
    currentSelection := [] }

/-- Method `QItemSelectionModel::select(selection, command)`.  `NoUpdate` returns at
once.  Otherwise invalid committed ranges are dropped; `Clear` empties both
layers; without `Current` the current selection is committed into `ranges`
first ("start a new current selection"); with Select, Deselect or Toggle the
current selection and command are then replaced by the arguments.  So a call
with `Current` set (Qt: "the current selection will be updated") overwrites the
uncommitted layer, which is how a rubber band follows the pointer.  Row and
column expansion is left out: the container never passes `Rows` or `Columns`. -/
def QItemSelectionModel.select (sm : QItemSelectionModel) (selection : List QModelIndex)
    (command : SelectionFlags) : QItemSelectionModel :=
  if command = SelectionFlags.NoUpdate then sm
  else
    let sm1 := { sm with ranges := sm.ranges.filter QModelIndex.isValid }
    let sm2 := if command.clear then { sm1 with ranges := [], currentSelection := [] } else sm1
    let sm3 := if !command.current then sm2.finalize else sm2
    if command.toggle || command.select || command.deselect then
      { sm3 with currentCommand := command, currentSelection := selection }
    else sm3

/-- Overload `QItemSelectionModel::select(index, command)`: selects
`QItemSelection(index, index)`, which is empty for an invalid index. -/
def QItemSelectionModel.selectIndex (sm : QItemSelectionModel) (index : QModelIndex)
    (command : SelectionFlags) : QItemSelectionModel :=
  sm.select (if index.isValid then [index] else []) command

/-- Method `QItemSelectionModel::clearSelection` (what `QAbstractItemView::clearSelection`
calls): nothing when both layers are empty, else `select(QItemSelection(), Clear)`. -/
def QItemSelectionModel.clearSelection (sm : QItemSelectionModel) : QItemSelectionModel :=
  if sm.ranges.length == 0 && sm.currentSelection.length == 0 then sm
  else sm.select [] SelectionFlags.Clear

/-! ## Items, GIO and the effect log -/

/-- State of one `AbstractComputerItem` that the container reads: what `uri()` and
`canUnmount()` return.  Items are referred to by pointer, a `Nat`. -/
structure AbstractComputerItem where
  uri : QString
  canUnmount : Bool
  deriving DecidableEq

/-- GLib error `GError`. -/
structure GError where
  domain : Nat
  code : Int
  message : String
  deriving DecidableEq

/-- Enumerator `G_IO_ERROR_ALREADY_MOUNTED` of `GIOErrorEnum`. -/
def G_IO_ERROR_ALREADY_MOUNTED : Int := 17

/-- GLib `g_error_matches`: same domain and same code. -/
def g_error_matches (err : GError) (domain : Nat) (code : Int) : Bool :=
  err.domain == domain && err.code == code

/-- Enumerator `G_PASSWORD_SAVE_FOR_SESSION` of `GPasswordSave`. -/
def G_PASSWORD_SAVE_FOR_SESSION : Nat := 1

/-- Fields of the `GMountOperation` behind `m_op` that the container writes. -/
structure GMountOperation where
  username : Option String
  password : Option String
  passwordSave : Nat
  deriving DecidableEq

/-- Key code `Qt::Key_Return`. -/
def Key_Return : Nat := 0x01000004

/-- Key code `Qt::Key_Enter`. -/
def Key_Enter : Nat := 0x01000005

/-- Dialog code `QDialog::Rejected`. -/
def QDialog.Rejected : Int := 0

/-- Dialog code `QDialog::Accepted`. -/
def QDialog.Accepted : Int := 1

/-- Externally visible actions of the container, in the order performed. -/
inductive Effect where
  /-- Call `item->check()`. -/
  | itemCheck (item : Nat)
  /-- Call `item->mount()`. -/
  | itemMount (item : Nat)
  /-- Call `item->unmount()`. -/
  | itemUnmount (item : Nat)
  /-- Signal `updateWindowLocationRequest(uri)`. -/
  | updateWindowLocationRequest (uri : QString)
  /-- Modal `QMessageBox::warning(parent, title, text)`. -/
  | messageBoxWarning (title text : QString)
  /-- Static `QProcess::startDetached(program, arguments)`. -/
  | startDetached (program : QString) (arguments : List QString)
  /-- Request `g_file_mount_enclosing_volume` for the file of `uri` with mount
  operation `op`. -/
  | mountEnclosingVolume (uri : String) (op : Nat)
  /-- Call `g_error_free`. -/
  | errorFree
  /-- Signal `triggered` of the action `action`. -/
  | actionTriggered (action : Nat)
  /-- Call `e->accept()` on the key event. -/
  | eventAccept
  /-- Call `QWidget::keyPressEvent(e)` of the base widget. -/
  | baseKeyPressEvent (key : Nat)
  /-- Call `model->setRootUri(uri)`. -/
  | setRootUri (uri : String)
  /-- Signal `viewDirectoryChanged`. -/
  | viewDirectoryChanged
  deriving DecidableEq

/-- Everything around the container that its code calls into and that is declared
elsewhere: the translation function, the GIO error quark, the proxy model's
`parent` and `itemFromIndex`, and what the item methods do to the items. -/
structure Host where
  tr : String → QString
  G_IO_ERROR : Nat
  modelParent : QModelIndex → QModelIndex
  itemFromIndex : QModelIndex → Nat
  check : Nat → (Nat → AbstractComputerItem) → (Nat → AbstractComputerItem)
  mount : Nat → (Nat → AbstractComputerItem) → (Nat → AbstractComputerItem)
  unmount : Nat → (Nat → AbstractComputerItem) → (Nat → AbstractComputerItem)

/-- State of a `ComputerViewContainer`: the members the handlers use
(`m_op` with the fields of the operation it points to, `m_remote_uri`,
`m_enterAction`, `m_model` and `m_proxyModel` with `none` for a null pointer,
the selection model of `m_view`), the items reachable through the proxy model,
the next free object pointer and the effect log. -/
structure ComputerViewContainer where
  m_model : Option Nat
  m_proxyModel : Option Nat
  m_op : Nat
  op : GMountOperation
  m_remote_uri : QString
  m_enterAction : Option Nat
  m_view : QItemSelectionModel
  items : Nat → AbstractComputerItem
  heapTop : Nat
  log : List Effect

/-- Append one effect to the log. -/
def ComputerViewContainer.emit (s : ComputerViewContainer) (e : Effect) :
    ComputerViewContainer :=
  { s with log := s.log ++ [e] }

/-- Effects a handler added when it took the container from `before` to `after`. -/
def emitted (before after : ComputerViewContainer) : List Effect :=
  after.log.drop before.log.length

/-! ## Mount completion callback -/

/-- Callback `mount_enclosing_volume_callback`; `res` is the error that
`g_file_mount_enclosing_volume_finish` stores (`none` when it leaves `err` null). -/
def mount_enclosing_volume_callback (host : Host) (res : Option GError)
    (p_this : ComputerViewContainer) : ComputerViewContainer :=
  let err := res
  let p1 :=
    match err with
    | none => p_this.emit (.updateWindowLocationRequest p_this.m_remote_uri)
    | some e =>
      if g_error_matches e host.G_IO_ERROR G_IO_ERROR_ALREADY_MOUNTED then
        p_this.emit (.updateWindowLocationRequest p_this.m_remote_uri)
      else
        p_this.emit (.messageBoxWarning (.str "log remote error") (.str e.message))
  match err with
  | some _ => p1.emit .errorFree
  | none => p1

/-! ## Connect-a-server dialog -/

/-- Member functions of `QDialog` that can be named in a `connect` call. -/
inductive QDialogMember where
  | finished | accepted | rejected
  | open_ | exec | done | accept | reject
  deriving DecidableEq

/-- Signals of `QDialog` are `finished(int)`, `accepted()` and `rejected()`;
`open`, `exec`, `done`, `accept` and `reject` are slots. -/
def QDialogMember.isSignal : QDialogMember → Bool
  | .finished => true
  | .accepted => true
  | .rejected => true
  | _ => false

/-- Slots the container hands to `connect` on the dialog. -/
inductive DialogSlot where
  /-- The lambda of lines 97-101: set user name, password and password-save on
  `m_op`. -/
  | storeCredentials
  deriving DecidableEq

/-- Call `QObject::connect(sender, member, functor)` with a pointer to a member
function: the pointer is looked up among the signals of the sender's meta
object; when it is not one of them ("signal not found") no connection is
made. -/
def QObject.connect (connections : List (QDialogMember × DialogSlot))
    (member : QDialogMember) (slot : DialogSlot) : List (QDialogMember × DialogSlot) :=
  if member.isSignal then connections ++ [(member, slot)] else connections

/-- Outcome of showing a `LoginRemoteFilesystem` dialog: the code `exec()` returns
and what `user()`, `password()` and `uri()` give. -/
structure LoginRemoteFilesystem where
  code : Int
  user : QString
  password : QString
  uri : QString
  deriving DecidableEq

/-- Signals a `QDialog` emits while `exec()` closes with result `code`. -/
def QDialog.emittedSignals (code : Int) : List QDialogMember :=
  (if code = QDialog.Accepted then [QDialogMember.accepted]
   else if code = QDialog.Rejected then [QDialogMember.rejected]
   else []) ++ [QDialogMember.finished]

/-- Body of a dialog slot. -/
def DialogSlot.run (dlg : LoginRemoteFilesystem) :
    DialogSlot → ComputerViewContainer → ComputerViewContainer
  | .storeCredentials, s =>
    { s with op := { username := some dlg.user.toUtf8
                     password := some dlg.password.toUtf8
                     passwordSave := G_PASSWORD_SAVE_FOR_SESSION } }

/-- Call `dlg->exec()`: every emitted signal runs the slots connected to it. -/
def QDialog.exec (connections : List (QDialogMember × DialogSlot))
    (dlg : LoginRemoteFilesystem) (s : ComputerViewContainer) : ComputerViewContainer :=
  (QDialog.emittedSignals dlg.code).foldl
    (fun acc sig =>
      (connections.filter (fun cn => decide (cn.1 = sig))).foldl
        (fun acc2 cn => cn.2.run dlg acc2) acc)
    s

/-- Slot of the "Connect a server" action (lines 94-113). -/
def connectServer (dlg : LoginRemoteFilesystem) (s : ComputerViewContainer) :
    ComputerViewContainer :=
  let connections := QObject.connect [] QDialogMember.accept DialogSlot.storeCredentials
  let s1 := QDialog.exec connections dlg s
  if dlg.code = QDialog.Rejected then s1
  else
    { s1 with m_remote_uri := dlg.uri }.emit
      (.mountEnclosingVolume dlg.uri.toUtf8 s1.m_op)

/-! ## Context menu -/

/-- Slot attached to a menu action. -/
inductive MenuSlot where
  /-- Lambda of the "Connect a server" action. -/
  | connectServer
  /-- Lambda of the "Unmount" action, with the captured item pointer. -/
  | unmount (item : Nat)
  /-- Lambda of the "Property" action, with the URI captured when the menu was
  built. -/
  | property (uri : QString)
  /-- No slot: `menu.addAction(text)`. -/
  | noSlot
  deriving DecidableEq

/-- Menu entry `QAction`: its text, whether it is enabled, its slot. -/
structure QAction where
  text : QString
  enabled : Bool
  slot : MenuSlot
  deriving DecidableEq

/-- Call `menu.addAction(text, slot)`: appends an enabled action. -/
def QMenu.addAction (menu : List QAction) (text : QString) (slot : MenuSlot) :
    List QAction :=
  menu ++ [{ text := text, enabled := true, slot := slot }]

/-- Statement `menu.actions().first()->setEnabled(b)`. -/
def QMenu.setFirstEnabled (menu : List QAction) (b : Bool) : List QAction :=
  match menu with
  | [] => []
  | a :: rest => { a with enabled := b } :: rest

/-- Statement `a->setEnabled(b)` for the action `a` that the last `addAction`
returned. -/
def QMenu.setLastEnabled (menu : List QAction) (b : Bool) : List QAction :=
  match menu.reverse with
  | [] => []
  | a :: rest => (({ a with enabled := b } : QAction) :: rest).reverse

/-- Lines 74-81: reconcile the selection with the index under the pointer. -/
def reconcileSelection (s : ComputerViewContainer) (index : QModelIndex) :
    ComputerViewContainer :=
  let selectedIndexes := s.m_view.selectedIndexes
  let s1 :=
    if !selectedIndexes.contains index then { s with m_view := s.m_view.clearSelection }
    else s
  if index.isValid then
    { s1 with m_view := s1.m_view.selectIndex index SelectionFlags.SelectCurrent }
  else s1

/-- Lines 83-140: the menu built from the items of the selected indexes. -/
def buildMenu (host : Host) (s : ComputerViewContainer) : List QAction :=
  let items := s.m_view.selectedIndexes.map host.itemFromIndex
  match items with
  | [] => QMenu.addAction [] (host.tr "Connect a server") MenuSlot.connectServer
  | [item] =>
    let unmountable := (s.items item).canUnmount
    let menu1 := QMenu.addAction [] (host.tr "Unmount") (MenuSlot.unmount item)
    let menu2 := QMenu.setFirstEnabled menu1 unmountable
    let uri := (s.items item).uri
    let menu3 := QMenu.addAction menu2 (host.tr "Property") (MenuSlot.property uri)
    QMenu.setLastEnabled menu3 (!uri.isNull)
  | _ :: _ :: _ =>
    let menu1 := QMenu.addAction [] (host.tr "Property") MenuSlot.noSlot
    QMenu.setFirstEnabled menu1 false

/-- Signal `QAction::triggered` reaching the slot of a menu action; `dlg` is what
the user does with the login dialog, should the slot open it. -/
def QAction.trigger (host : Host) (dlg : LoginRemoteFilesystem) (a : QAction)
    (s : ComputerViewContainer) : ComputerViewContainer :=
  match a.slot with
  | .connectServer => connectServer dlg s
  | .unmount item => { s with items := host.unmount item s.items }.emit (.itemUnmount item)
  | .property uri =>
    if uri.isNull then
      s.emit (.messageBoxWarning .null (host.tr "You have to mount this volume first"))
    else
      s.emit (.startDetached (.str "peony") [.str "-p", uri])
  | .noSlot => s

/-- Call `menu.exec(QCursor::pos())`: the user dismisses the menu (`none`) or picks
the entry at a position; only an enabled entry is triggered. -/
def QMenu.exec (host : Host) (dlg : LoginRemoteFilesystem) (menu : List QAction)
    (choice : Option Nat) (s : ComputerViewContainer) : ComputerViewContainer :=
  match choice with
  | none => s
  | some k =>
    match menu[k]? with
    | some a => if a.enabled then a.trigger host dlg s else s
    | none => s

/-- Handler of `customContextMenuRequested` (lines 73-143); `index` is
`m_view->indexAt(pos)`. -/
def customContextMenuRequested (host : Host) (index : QModelIndex) (choice : Option Nat)
    (dlg : LoginRemoteFilesystem) (s : ComputerViewContainer) : ComputerViewContainer :=
  let s1 := reconcileSelection s index
  QMenu.exec host dlg (buildMenu host s1) choice s1

/-- Method `getSelections` (lines 153-162): the URIs of the selected items. -/
def getSelections (host : Host) (s : ComputerViewContainer) : List QString :=
  s.m_view.selectedIndexes.map (fun index => (s.items (host.itemFromIndex index)).uri)

/-! ## Double click, Enter, key events, model binding -/

/-- Handler of the view's `doubleClicked` signal (lines 200-212). -/
def doubleClicked (host : Host) (index : QModelIndex) (s : ComputerViewContainer) :
    ComputerViewContainer :=
  if !(index.parent host.modelParent).isValid then s
  else
    let item := host.itemFromIndex index
    if !(s.items item).uri.isEmpty then
      let s1 := { s with items := host.check item s.items }.emit (.itemCheck item)
      s1.emit (.updateWindowLocationRequest (s1.items item).uri)
    else
      { s with items := host.mount item s.items }.emit (.itemMount item)

/-- Handler of `m_enterAction`'s `triggered` signal (lines 218-222). -/
def enterActionTriggered (host : Host) (s : ComputerViewContainer) : ComputerViewContainer :=
  if s.m_view.selectedIndexes.length = 1 then
    match s.m_view.selectedIndexes.head? with
    | some first => doubleClicked host first s
    | none => s
  else s

/-- Method `keyPressEvent` (lines 169-179); `key` is `e->key()`.  Emitting
`triggered` on the action made by `bindModel` runs `enterActionTriggered`. -/
def keyPressEvent (host : Host) (key : Nat) (s : ComputerViewContainer) :
    ComputerViewContainer :=
  if key = Key_Enter ∨ key = Key_Return then
    let s1 :=
      match s.m_enterAction with
      | some a => enterActionTriggered host (s.emit (.actionTriggered a))
      | none => s
    s1.emit .eventAccept
  else
    s.emit (.baseKeyPressEvent key)

/-- Method `bindModel` (lines 181-223): sets the root URI, replaces the view by a
new one (with a new, empty selection model) and creates a new `m_enterAction`. -/
def bindModel (model proxyModel : Nat) (s : ComputerViewContainer) :
    ComputerViewContainer :=
  let s0 := { s with m_model := some model, m_proxyModel := some proxyModel }
  let s1 := s0.emit (.setRootUri "computer:///")
  let s2 := { s1 with m_view := QItemSelectionModel.empty }
  let s3 := s2.emit .viewDirectoryChanged
  { s3 with m_enterAction := some s3.heapTop, heapTop := s3.heapTop + 1 }

/-- Container as the constructor leaves it: no effects yet, `m_enterAction` null. -/
def ComputerViewContainer.init (items : Nat → AbstractComputerItem) : ComputerViewContainer :=
  { m_model := none
    m_proxyModel := none
    m_op := 1
    op := { username := none, password := none, passwordSave := 0 }
    m_remote_uri := QString.null
    m_enterAction := none
    m_view := QItemSelectionModel.empty
    items := items
    heapTop := 2
    log := [] }

/-! ## Classification of effects and concrete inputs -/

/-- Effects of key handling proper: the action's `triggered` signal, accepting the
event, handing the event to the base widget. -/
def Effect.isKeyHandling : Effect → Bool
  | .actionTriggered _ => true
  | .eventAccept => true
  | .baseKeyPressEvent _ => true
  | _ => false

/-- Effects of activating an item: `check`, `mount` and the location-update
request. -/
def Effect.isActivation : Effect → Bool
  | .itemCheck _ => true
  | .itemMount _ => true
  | .updateWindowLocationRequest _ => true
  | _ => false

/-- A host for the concrete inputs: identity translation, a two-level model whose
child entries have internal id above 0, item pointer equal to the internal id
of the index, and item methods that leave the items as they are. -/
def demoHost : Host :=
  { tr := QString.str
    G_IO_ERROR := 7
    modelParent := fun x => if x.i = 0 then QModelIndex.invalid else ⟨0, 0, 0, x.m⟩
    itemFromIndex := fun x => x.i
    check := fun _ items => items
    mount := fun _ items => items
    unmount := fun _ items => items }

/-- A host like `demoHost` whose `check()` refreshes the URI of the checked item to
the activation root "mtp://device/", as a volume item may do. -/
def refreshHost : Host :=
  { demoHost with
    check := fun item items p =>
      if p = item then { items p with uri := .str "mtp://device/" } else items p }

/-- Items for the concrete inputs: item 1 is a mounted, unmountable volume, item 2
reports the empty non-null URI `QString("")`, every other item is not mounted
(null URI). -/
def demoItems : Nat → AbstractComputerItem := fun p =>
  if p = 1 then { uri := .str "file:///media/usb", canUnmount := true }
  else if p = 2 then { uri := .str "", canUnmount := false }
  else { uri := .null, canUnmount := false }

/-- Child index with internal id `k` in row `k` of the demo model. -/
def demoIndex (k : Nat) : QModelIndex := ⟨k, 0, k, some 1⟩

/-- A bound container with the given selection model over the demo items. -/
def demoContainer (sm : QItemSelectionModel) : ComputerViewContainer :=
  { bindModel 10 11 (ComputerViewContainer.init demoItems) with m_view := sm }

/-! ## Basic facts -/

theorem emitted_append (s t : ComputerViewContainer) (es : List Effect)
    (h : t.log = s.log ++ es) : emitted s t = es := by
  simp [emitted, h]

theorem exec_no_connections (dlg : LoginRemoteFilesystem) (s : ComputerViewContainer) :
    QDialog.exec [] dlg s = s := by
  unfold QDialog.exec
  induction QDialog.emittedSignals dlg.code with
  | nil => rfl
  | cons sig rest ih => simp [ih]

theorem connect_accept_makes_no_connection :
    QObject.connect [] QDialogMember.accept DialogSlot.storeCredentials = [] := by
  rfl

theorem connectServer_eq (dlg : LoginRemoteFilesystem) (s : ComputerViewContainer) :
    connectServer dlg s =
      if dlg.code = QDialog.Rejected then s
      else { s with m_remote_uri := dlg.uri }.emit
        (.mountEnclosingVolume dlg.uri.toUtf8 s.m_op) := by
  simp [connectServer, connect_accept_makes_no_connection, exec_no_connections]

theorem doubleClicked_log (host : Host) (index : QModelIndex) (s : ComputerViewContainer) :
    ∃ es, (doubleClicked host index s).log = s.log ++ es ∧
      es.filter Effect.isKeyHandling = [] ∧ es.filter Effect.isActivation = es ∧
      (∀ s2 : ComputerViewContainer, s2.items = s.items →
        (doubleClicked host index s2).log = s2.log ++ es ∧
        (doubleClicked host index s2).items = (doubleClicked host index s).items) := by
  unfold doubleClicked
  by_cases hp : (index.parent host.modelParent).isValid = true
  · by_cases hu : ((s.items (host.itemFromIndex index)).uri).isEmpty = true
    · refine ⟨[.itemMount (host.itemFromIndex index)], ?_, ?_, ?_, ?_⟩
      · simp [hp, hu, ComputerViewContainer.emit]
      · simp [Effect.isKeyHandling]
      · simp [Effect.isActivation]
      · intro s2 h2
        simp [hp, hu, h2, ComputerViewContainer.emit]
    · refine ⟨[.itemCheck (host.itemFromIndex index),
        .updateWindowLocationRequest
          ((host.check (host.itemFromIndex index) s.items) (host.itemFromIndex index)).uri],
        ?_, ?_, ?_, ?_⟩
      · simp [hp, hu, ComputerViewContainer.emit]
      · simp [Effect.isKeyHandling]
      · simp [Effect.isActivation]
      · intro s2 h2
        simp [hp, hu, h2, ComputerViewContainer.emit]
  · refine ⟨[], ?_, ?_, ?_, ?_⟩
    · simp [hp]
    · simp
    · simp
    · intro s2 h2
      simp [hp, h2]

/-! ## Claims -/

/-- C2: the mount completion callback.  With no error the callback adds exactly
the location-update request for the cached `m_remote_uri`; with the GIO error
"already mounted" it adds that request and then frees the error; with any other
error it adds exactly one warning dialog (title "log remote error", text the
error's message) and frees the error, and no location-update request.  The
members of the container are left as they were. -/
theorem mount_callback_contract (host : Host) (res : Option GError)
    (p_this : ComputerViewContainer) :
    (res = none →
      emitted p_this (mount_enclosing_volume_callback host res p_this) =
        [.updateWindowLocationRequest p_this.m_remote_uri]) ∧
    (∀ e, res = some e → e.domain = host.G_IO_ERROR → e.code = G_IO_ERROR_ALREADY_MOUNTED →
      emitted p_this (mount_enclosing_volume_callback host res p_this) =
        [.updateWindowLocationRequest p_this.m_remote_uri, .errorFree]) ∧
    (∀ e, res = some e → ¬(e.domain = host.G_IO_ERROR ∧ e.code = G_IO_ERROR_ALREADY_MOUNTED) →
      emitted p_this (mount_enclosing_volume_callback host res p_this) =
        [.messageBoxWarning (.str "log remote error") (.str e.message), .errorFree]) ∧
    (mount_enclosing_volume_callback host res p_this).m_remote_uri = p_this.m_remote_uri := by
  refine ⟨?_, ?_, ?_, ?_⟩
  · intro h
    subst h
    simp [mount_enclosing_volume_callback, emitted, ComputerViewContainer.emit]
  · intro e h hd hc
    subst h
    simp [mount_enclosing_volume_callback, emitted, ComputerViewContainer.emit,
      g_error_matches, hd, hc]
  · intro e h hn
    subst h
    have hm : g_error_matches e host.G_IO_ERROR G_IO_ERROR_ALREADY_MOUNTED = false := by
      simp only [g_error_matches, Bool.and_eq_false_iff, beq_eq_false_iff_ne, ne_eq]
      by_cases hd : e.domain = host.G_IO_ERROR
      · right
        exact fun hc => hn ⟨hd, hc⟩
      · left
        exact hd
    simp [mount_enclosing_volume_callback, emitted, ComputerViewContainer.emit, hm]
  · cases res with
    | none => simp [mount_enclosing_volume_callback, ComputerViewContainer.emit]
    | some e =>
      by_cases hm : g_error_matches e host.G_IO_ERROR G_IO_ERROR_ALREADY_MOUNTED = true
      · simp [mount_enclosing_volume_callback, ComputerViewContainer.emit, hm]
      · simp [mount_enclosing_volume_callback, ComputerViewContainer.emit, hm]

/-- C2 at concrete inputs: a permission-denied error (code 14) in the GIO domain
gives one warning with the message and no location update. -/
theorem mount_callback_contract_witness :
    emitted (demoContainer QItemSelectionModel.empty)
        (mount_enclosing_volume_callback demoHost (some ⟨7, 14, "Permission denied"⟩)
          (demoContainer QItemSelectionModel.empty)) =
      [.messageBoxWarning (.str "log remote error") (.str "Permission denied"),
       .errorFree] :=
  (mount_callback_contract demoHost (some ⟨7, 14, "Permission denied"⟩)
    (demoContainer QItemSelectionModel.empty)).2.2.1 ⟨7, 14, "Permission denied"⟩ rfl
    (by decide)

/-- C5: a rejected "Connect a server" dialog.  When `exec()` returns
`QDialog::Rejected` the slot leaves the container exactly as it was: nothing is
added to the effect log (no mount request, no warning dialog, no
location-update request) and `m_remote_uri` keeps its value.  The same holds
when the slot runs through the menu action. -/
theorem connect_rejected_is_silent (host : Host) (dlg : LoginRemoteFilesystem)
    (s : ComputerViewContainer) (a : QAction) (hrej : dlg.code = QDialog.Rejected)
    (ha : a.slot = MenuSlot.connectServer) :
    connectServer dlg s = s ∧ a.trigger host dlg s = s ∧
    emitted s (a.trigger host dlg s) = [] ∧
    (a.trigger host dlg s).m_remote_uri = s.m_remote_uri := by
  have h1 : connectServer dlg s = s := by
    rw [connectServer_eq]
    simp [hrej]
  have h2 : a.trigger host dlg s = s := by
    simp [QAction.trigger, ha, h1]
  refine ⟨h1, h2, ?_, ?_⟩
  · rw [h2]
    simp [emitted]
  · rw [h2]

/-- C5 at a concrete input: rejecting the dialog after typing a URI adds no
effect. -/
theorem connect_rejected_is_silent_witness :
    emitted (demoContainer QItemSelectionModel.empty)
      (QAction.trigger demoHost ⟨0, .str "u", .str "p", .str "smb://host/share"⟩
        ⟨.str "Connect a server", true, MenuSlot.connectServer⟩
        (demoContainer QItemSelectionModel.empty)) = [] :=
  (connect_rejected_is_silent demoHost ⟨0, .str "u", .str "p", .str "smb://host/share"⟩
    (demoContainer QItemSelectionModel.empty)
    ⟨.str "Connect a server", true, MenuSlot.connectServer⟩ rfl rfl).2.2.1

/-- C8, the claim as worded fails.  The host's `check()` refreshes the item's URI
(here to the activation root "mtp://device/").  Item 1 is double-clicked while
its URI is the non-empty "file:///media/usb": the handler calls `check` and then
emits one location-update request, but with the URI re-read after `check`,
"mtp://device/", not with the URI it tested. -/
theorem doubleClicked_request_differs_from_tested_uri :
    ((demoIndex 1).parent refreshHost.modelParent).isValid = true ∧
    ((demoContainer QItemSelectionModel.empty).items
      (refreshHost.itemFromIndex (demoIndex 1))).uri = .str "file:///media/usb" ∧
    emitted (demoContainer QItemSelectionModel.empty)
        (doubleClicked refreshHost (demoIndex 1) (demoContainer QItemSelectionModel.empty)) =
      [.itemCheck 1, .updateWindowLocationRequest (.str "mtp://device/")] ∧
    emitted (demoContainer QItemSelectionModel.empty)
        (doubleClicked refreshHost (demoIndex 1) (demoContainer QItemSelectionModel.empty)) ≠
      [.itemCheck 1, .updateWindowLocationRequest (.str "file:///media/usb")] := by
  refine ⟨by decide, by decide, by decide, by decide⟩

/-- C8 as amended: the double-click handler.  For an index whose parent is invalid
the container is unchanged.  Otherwise, when the item's URI is non-empty the
handler adds exactly `check` on the item followed by one location-update
request, never `mount`; the request carries the URI the item reports after
`check` returned, which is the URI that was tested whenever `check` leaves the
item's URI as it was.  When the item's URI is empty the handler adds exactly
`mount` on the item and no location-update request. -/
theorem doubleClicked_contract (host : Host) (index : QModelIndex)
    (s : ComputerViewContainer) :
    ((index.parent host.modelParent).isValid = false → doubleClicked host index s = s) ∧
    ((index.parent host.modelParent).isValid = true →
      (s.items (host.itemFromIndex index)).uri.isEmpty = false →
      emitted s (doubleClicked host index s) =
        [.itemCheck (host.itemFromIndex index),
         .updateWindowLocationRequest
           (host.check (host.itemFromIndex index) s.items (host.itemFromIndex index)).uri] ∧
      (doubleClicked host index s).items = host.check (host.itemFromIndex index) s.items ∧
      ((host.check (host.itemFromIndex index) s.items (host.itemFromIndex index)).uri =
          (s.items (host.itemFromIndex index)).uri →
        emitted s (doubleClicked host index s) =
          [.itemCheck (host.itemFromIndex index),
           .updateWindowLocationRequest (s.items (host.itemFromIndex index)).uri])) ∧
    ((index.parent host.modelParent).isValid = true →
      (s.items (host.itemFromIndex index)).uri.isEmpty = true →
      emitted s (doubleClicked host index s) = [.itemMount (host.itemFromIndex index)] ∧
      (doubleClicked host index s).items = host.mount (host.itemFromIndex index) s.items) := by
  refine ⟨?_, ?_, ?_⟩
  · intro hp
    simp [doubleClicked, hp]
  · intro hp hu
    have h1 : emitted s (doubleClicked host index s) =
        [.itemCheck (host.itemFromIndex index),
         .updateWindowLocationRequest
           (host.check (host.itemFromIndex index) s.items (host.itemFromIndex index)).uri] := by
      simp [doubleClicked, hp, hu, emitted, ComputerViewContainer.emit]
    refine ⟨h1, ?_, ?_⟩
    · simp [doubleClicked, hp, hu, ComputerViewContainer.emit]
    · intro hsame
      rw [h1, hsame]
  · intro hp hu
    simp [doubleClicked, hp, hu, emitted, ComputerViewContainer.emit]

/-- C8 as amended, at a concrete input: with a `check()` that leaves the items
alone, double-clicking the mounted volume (item 1) checks it and requests
"file:///media/usb", the URI that was tested. -/
theorem doubleClicked_contract_witness :
    emitted (demoContainer QItemSelectionModel.empty)
        (doubleClicked demoHost (demoIndex 1) (demoContainer QItemSelectionModel.empty)) =
      [.itemCheck 1, .updateWindowLocationRequest (.str "file:///media/usb")] :=
  ((doubleClicked_contract demoHost (demoIndex 1)
    (demoContainer QItemSelectionModel.empty)).2.1 (by decide) (by decide)).2.2 (by decide)

theorem enterActionTriggered_log (host : Host) (s : ComputerViewContainer) :
    ∃ es, (enterActionTriggered host s).log = s.log ++ es ∧
      es.filter Effect.isKeyHandling = [] := by
  unfold enterActionTriggered
  split
  · split
    · rename_i first _
      obtain ⟨es, h1, h2, _⟩ := doubleClicked_log host first s
      exact ⟨es, h1, h2⟩
    · exact ⟨[], by simp, by simp⟩
  · exact ⟨[], by simp, by simp⟩

/-- C6: key handling.  For Enter or Return the key-handling effects added are the
`triggered` signal of the cached action exactly when `m_enterAction` is
non-null, followed by accepting the event, and the base widget's handler is not
called; for every other key the only effect is the call of the base widget's
`keyPressEvent`, so the action is not triggered. -/
theorem keyPressEvent_contract (host : Host) (key : Nat) (s : ComputerViewContainer) :
    ((key = Key_Enter ∨ key = Key_Return) →
      (emitted s (keyPressEvent host key s)).filter Effect.isKeyHandling =
        (match s.m_enterAction with
          | some a => [Effect.actionTriggered a]
          | none => []) ++ [Effect.eventAccept]) ∧
    (¬(key = Key_Enter ∨ key = Key_Return) →
      emitted s (keyPressEvent host key s) = [Effect.baseKeyPressEvent key]) := by
  refine ⟨?_, ?_⟩
  · intro hk
    cases ha : s.m_enterAction with
    | none =>
      simp [keyPressEvent, hk, ha, emitted, ComputerViewContainer.emit, Effect.isKeyHandling]
    | some a =>
      obtain ⟨es, h1, h2⟩ := enterActionTriggered_log host (s.emit (.actionTriggered a))
      have h3 : (keyPressEvent host key s).log =
          s.log ++ ([Effect.actionTriggered a] ++ es ++ [Effect.eventAccept]) := by
        simp [keyPressEvent, hk, ha, ComputerViewContainer.emit] at h1 ⊢
        simp [h1]
      rw [emitted_append s _ _ h3]
      simp [List.filter_append, h2, Effect.isKeyHandling]
  · intro hk
    simp [keyPressEvent, hk, emitted, ComputerViewContainer.emit]

/-- C6 at a concrete input: Return on a bound container with nothing selected
triggers the action (pointer 2) and accepts the event. -/
theorem keyPressEvent_contract_witness :
    (emitted (demoContainer QItemSelectionModel.empty)
        (keyPressEvent demoHost Key_Return
          (demoContainer QItemSelectionModel.empty))).filter Effect.isKeyHandling =
      [Effect.actionTriggered 2, Effect.eventAccept] :=
  (keyPressEvent_contract demoHost Key_Return
    (demoContainer QItemSelectionModel.empty)).1 (Or.inr rfl)

theorem bindModel_binds (model proxyModel : Nat) (s : ComputerViewContainer) :
    (bindModel model proxyModel s).m_enterAction = some s.heapTop ∧
    (bindModel model proxyModel s).m_view = QItemSelectionModel.empty := by
  simp [bindModel, ComputerViewContainer.emit]

/-- C10: Enter or Return on a bound container (`bindModel` leaves `m_enterAction`
non-null, here `some a`).  When the number of selected indexes is not 1, no
`check`, `mount` or location-update request is added and the items are
untouched: the added effects are just the `triggered` signal and accepting the
event.  When exactly one index is selected, the activation effects added and
the resulting items are those of the double-click handler run on that index,
which includes doing nothing for a top-level entry. -/
theorem enter_key_activates_single_selection (host : Host) (key : Nat)
    (s : ComputerViewContainer) (a : Nat)
    (hbound : s.m_enterAction = some a) (hk : key = Key_Enter ∨ key = Key_Return) :
    (s.m_view.selectedIndexes.length ≠ 1 →
      emitted s (keyPressEvent host key s) = [.actionTriggered a, .eventAccept] ∧
      (emitted s (keyPressEvent host key s)).filter Effect.isActivation = [] ∧
      (keyPressEvent host key s).items = s.items) ∧
    (∀ index, s.m_view.selectedIndexes = [index] →
      (emitted s (keyPressEvent host key s)).filter Effect.isActivation =
        emitted s (doubleClicked host index s) ∧
      (keyPressEvent host key s).items = (doubleClicked host index s).items) := by
  refine ⟨?_, ?_⟩
  · intro hn
    have h : keyPressEvent host key s = (s.emit (.actionTriggered a)).emit .eventAccept := by
      simp [keyPressEvent, hk, hbound, enterActionTriggered, ComputerViewContainer.emit, hn]
    rw [h]
    simp [emitted, ComputerViewContainer.emit, Effect.isActivation]
  · intro index hsel
    obtain ⟨es, h1, _, h3, h4⟩ := doubleClicked_log host index s
    obtain ⟨h5, h6⟩ := h4 (s.emit (.actionTriggered a)) (by simp [ComputerViewContainer.emit])
    have h : keyPressEvent host key s =
        (doubleClicked host index (s.emit (.actionTriggered a))).emit .eventAccept := by
      simp [keyPressEvent, hk, hbound, enterActionTriggered, ComputerViewContainer.emit, hsel]
    have hlog : (keyPressEvent host key s).log =
        s.log ++ ([Effect.actionTriggered a] ++ es ++ [Effect.eventAccept]) := by
      rw [h]
      simp [ComputerViewContainer.emit] at h5 ⊢
      simp [h5]
    refine ⟨?_, ?_⟩
    · rw [emitted_append s _ _ hlog, emitted_append s _ _ h1]
      simp [List.filter_append, h3, Effect.isActivation]
    · rw [h]
      simpa [ComputerViewContainer.emit] using h6

/-- C10 at a concrete input: Enter with only the unmounted item 3 selected mounts
it, as a double click on it does. -/
theorem enter_key_activates_single_selection_witness :
    (emitted (demoContainer ⟨[demoIndex 3], [], SelectionFlags.NoUpdate⟩)
        (keyPressEvent demoHost Key_Enter
          (demoContainer ⟨[demoIndex 3], [], SelectionFlags.NoUpdate⟩))).filter
        Effect.isActivation =
      emitted (demoContainer ⟨[demoIndex 3], [], SelectionFlags.NoUpdate⟩)
        (doubleClicked demoHost (demoIndex 3)
          (demoContainer ⟨[demoIndex 3], [], SelectionFlags.NoUpdate⟩)) :=
  ((enter_key_activates_single_selection demoHost Key_Enter
    (demoContainer ⟨[demoIndex 3], [], SelectionFlags.NoUpdate⟩) 2 rfl (Or.inl rfl)).2
    (demoIndex 3) (by decide)).1

theorem buildMenu_single (host : Host) (s : ComputerViewContainer) (index : QModelIndex)
    (hsel : s.m_view.selectedIndexes = [index]) :
    buildMenu host s =
      [⟨host.tr "Unmount", (s.items (host.itemFromIndex index)).canUnmount,
          MenuSlot.unmount (host.itemFromIndex index)⟩,
       ⟨host.tr "Property", !(s.items (host.itemFromIndex index)).uri.isNull,
          MenuSlot.property (s.items (host.itemFromIndex index)).uri⟩] := by
  simp [buildMenu, hsel, QMenu.addAction, QMenu.setFirstEnabled, QMenu.setLastEnabled]

/-- C7: the "Unmount" action.  With exactly one index selected the menu is
"Unmount" followed by a second action; "Unmount" is enabled exactly when the
selected item's `canUnmount()` holds, and triggering it adds a single effect,
`unmount` on the selected item, whatever the dialog outcome supplied. -/
theorem unmount_action_contract (host : Host) (s : ComputerViewContainer)
    (index : QModelIndex) (hsel : s.m_view.selectedIndexes = [index]) :
    ∃ a p, buildMenu host s = [a, p] ∧ a.text = host.tr "Unmount" ∧
      (a.enabled = true ↔ (s.items (host.itemFromIndex index)).canUnmount = true) ∧
      ∀ (dlg : LoginRemoteFilesystem) (s2 : ComputerViewContainer),
        emitted s2 (a.trigger host dlg s2) = [.itemUnmount (host.itemFromIndex index)] ∧
        (a.trigger host dlg s2).items = host.unmount (host.itemFromIndex index) s2.items := by
  refine ⟨⟨host.tr "Unmount", (s.items (host.itemFromIndex index)).canUnmount,
      MenuSlot.unmount (host.itemFromIndex index)⟩,
    ⟨host.tr "Property", !(s.items (host.itemFromIndex index)).uri.isNull,
      MenuSlot.property (s.items (host.itemFromIndex index)).uri⟩, ?_, ?_, ?_, ?_⟩
  · exact buildMenu_single host s index hsel
  · rfl
  · simp
  · intro dlg s2
    simp [QAction.trigger, emitted, ComputerViewContainer.emit]

/-- C7 at a concrete input: with the mounted volume (item 1) selected the menu
starts with an "Unmount" action. -/
theorem unmount_action_contract_witness :
    ∃ a p, buildMenu demoHost (demoContainer ⟨[demoIndex 1], [], SelectionFlags.NoUpdate⟩) =
        [a, p] ∧ a.text = demoHost.tr "Unmount" ∧
      (a.enabled = true ↔ (demoItems (demoHost.itemFromIndex (demoIndex 1))).canUnmount = true) ∧
      ∀ (dlg : LoginRemoteFilesystem) (s2 : ComputerViewContainer),
        emitted s2 (a.trigger demoHost dlg s2) =
          [.itemUnmount (demoHost.itemFromIndex (demoIndex 1))] ∧
        (a.trigger demoHost dlg s2).items =
          demoHost.unmount (demoHost.itemFromIndex (demoIndex 1)) s2.items :=
  unmount_action_contract demoHost (demoContainer ⟨[demoIndex 1], [], SelectionFlags.NoUpdate⟩)
    (demoIndex 1) (by decide)

/-- C1: the context menu by selection count.  Let n be the number of selected
indexes after the selection was reconciled with the clicked index.  For n = 0
the menu is the single action "Connect a server"; for n = 1 it is "Unmount"
followed by "Property"; for n > 1 it is the single action "Property", and that
action is disabled. -/
theorem context_menu_by_count (host : Host) (index : QModelIndex)
    (s : ComputerViewContainer) :
    ((reconcileSelection s index).m_view.selectedIndexes.length = 0 →
      (buildMenu host (reconcileSelection s index)).map QAction.text =
        [host.tr "Connect a server"]) ∧
    ((reconcileSelection s index).m_view.selectedIndexes.length = 1 →
      (buildMenu host (reconcileSelection s index)).map QAction.text =
        [host.tr "Unmount", host.tr "Property"]) ∧
    (1 < (reconcileSelection s index).m_view.selectedIndexes.length →
      (buildMenu host (reconcileSelection s index)).map QAction.text =
        [host.tr "Property"] ∧
      (buildMenu host (reconcileSelection s index)).map QAction.enabled = [false]) := by
  rcases h : (reconcileSelection s index).m_view.selectedIndexes with _ | ⟨x, _ | ⟨y, rest⟩⟩
  · simp [buildMenu, h, QMenu.addAction]
  · simp [buildMenu, h, QMenu.addAction, QMenu.setFirstEnabled, QMenu.setLastEnabled]
  · simp [buildMenu, h, QMenu.addAction, QMenu.setFirstEnabled]

/-- C1 at a concrete input: a right click on item 1 while items 1 and 3 are in the
committed selection gives the disabled "Property" menu. -/
theorem context_menu_by_count_witness :
    (buildMenu demoHost (reconcileSelection
        (demoContainer ⟨[demoIndex 1, demoIndex 3], [], SelectionFlags.NoUpdate⟩)
        (demoIndex 1))).map QAction.text = [demoHost.tr "Property"] ∧
    (buildMenu demoHost (reconcileSelection
        (demoContainer ⟨[demoIndex 1, demoIndex 3], [], SelectionFlags.NoUpdate⟩)
        (demoIndex 1))).map QAction.enabled = [false] :=
  (context_menu_by_count demoHost (demoIndex 1)
    (demoContainer ⟨[demoIndex 1, demoIndex 3], [], SelectionFlags.NoUpdate⟩)).2.2 (by decide)

/-! ## Where the code departs from the claims -/

theorem property_action_behaviour (host : Host) (dlg : LoginRemoteFilesystem)
    (a : QAction) (uri : QString) (s : ComputerViewContainer)
    (ha : a.slot = MenuSlot.property uri) :
    emitted s (a.trigger host dlg s) =
      if uri.isNull then
        [.messageBoxWarning .null (host.tr "You have to mount this volume first")]
      else [.startDetached (.str "peony") [.str "-p", uri]] := by
  cases uri with
  | null => simp [QAction.trigger, ha, emitted, ComputerViewContainer.emit, QString.isNull]
  | str t => simp [QAction.trigger, ha, emitted, ComputerViewContainer.emit, QString.isNull]

/-- C3, the code at the failing input.  Item 2 reports the empty, non-null URI
`QString("")`.  Right-clicking it and choosing the second menu entry,
"Property", shows no warning and starts `peony -p ""`, because the slot tests
`uri.isNull()`; the double-click handler, which tests `uri().isEmpty()`, treats
the same item as not mounted and calls `mount`. -/
theorem property_action_launches_on_empty_uri :
    (demoItems 2).uri.isEmpty = true ∧
    (buildMenu demoHost (reconcileSelection (demoContainer QItemSelectionModel.empty)
        (demoIndex 2))).map QAction.text = [.str "Unmount", .str "Property"] ∧
    emitted (demoContainer QItemSelectionModel.empty)
        (customContextMenuRequested demoHost (demoIndex 2) (some 1)
          ⟨0, .null, .null, .null⟩ (demoContainer QItemSelectionModel.empty)) =
      [.startDetached (.str "peony") [.str "-p", .str ""]] ∧
    emitted (demoContainer QItemSelectionModel.empty)
        (doubleClicked demoHost (demoIndex 2) (demoContainer QItemSelectionModel.empty)) =
      [.itemMount 2] := by
  refine ⟨by decide, by decide, by decide, by decide⟩

theorem connectServer_leaves_credentials (dlg : LoginRemoteFilesystem)
    (s : ComputerViewContainer) : (connectServer dlg s).op = s.op := by
  rw [connectServer_eq]
  split <;> simp [ComputerViewContainer.emit]

theorem accepted_signal_would_store (dlg : LoginRemoteFilesystem)
    (s : ComputerViewContainer) (h : dlg.code = QDialog.Accepted) :
    (QDialog.exec (QObject.connect [] QDialogMember.accepted DialogSlot.storeCredentials)
        dlg s).op =
      { username := some dlg.user.toUtf8, password := some dlg.password.toUtf8,
        passwordSave := G_PASSWORD_SAVE_FOR_SESSION } := by
  simp [QDialog.exec, QObject.connect, QDialogMember.isSignal, QDialog.emittedSignals, h,
    DialogSlot.run]

/-- C4, the code at the failing input.  The dialog is accepted with user "alice",
password "secret" and URI "smb://host/share".  The slot sets `m_remote_uri` to
that URI and issues exactly one mount request for it with `m_op`, but the
mount operation still has no user name and no password: the credential lambda
is connected to `QDialog::accept`, a slot, so `connect` makes no connection and
the lambda never runs. -/
theorem connect_accepted_stores_no_credentials :
    (connectServer ⟨QDialog.Accepted, .str "alice", .str "secret", .str "smb://host/share"⟩
        (demoContainer QItemSelectionModel.empty)).op =
      { username := none, password := none, passwordSave := 0 } ∧
    (connectServer ⟨QDialog.Accepted, .str "alice", .str "secret", .str "smb://host/share"⟩
        (demoContainer QItemSelectionModel.empty)).m_remote_uri = .str "smb://host/share" ∧
    emitted (demoContainer QItemSelectionModel.empty)
        (connectServer ⟨QDialog.Accepted, .str "alice", .str "secret", .str "smb://host/share"⟩
          (demoContainer QItemSelectionModel.empty)) =
      [.mountEnclosingVolume "smb://host/share" 1] := by
  refine ⟨by decide, by decide, by decide⟩

theorem selectedIndexes_isValid (sm : QItemSelectionModel) (x : QModelIndex)
    (h : x ∈ sm.selectedIndexes) : x.isValid = true := by
  simp only [QItemSelectionModel.selectedIndexes, List.mem_filter] at h
  exact h.2

theorem clearSelection_layers (sm : QItemSelectionModel) :
    sm.clearSelection.ranges = [] ∧ sm.clearSelection.currentSelection = [] := by
  unfold QItemSelectionModel.clearSelection
  split
  · rename_i h
    simp only [Bool.and_eq_true, beq_iff_eq, List.length_eq_zero] at h
    exact h
  · simp [QItemSelectionModel.select, SelectionFlags.Clear, SelectionFlags.NoUpdate,
      QItemSelectionModel.finalize, QItemSelection.merge]

theorem selectIndex_selectCurrent (sm : QItemSelectionModel) (index : QModelIndex)
    (hv : index.isValid = true) :
    (sm.selectIndex index SelectionFlags.SelectCurrent).selectedIndexes =
      (sm.ranges.filter QModelIndex.isValid).filter (fun x => !decide (x = index)) ++ [index] := by
  simp [QItemSelectionModel.selectIndex, QItemSelectionModel.select, hv,
    SelectionFlags.SelectCurrent, SelectionFlags.NoUpdate,
    QItemSelectionModel.selectedIndexes, QItemSelection.merge, List.filter_filter]
  apply List.filter_congr
  intro x _
  by_cases hx : x = index
  · simp [hx, hv]
  · simp [hx]

theorem reconcileSelection_cases (s : ComputerViewContainer) (index : QModelIndex) :
    (index.isValid = false →
      (reconcileSelection s index).m_view.selectedIndexes = []) ∧
    (index.isValid = true →
      index ∈ (reconcileSelection s index).m_view.selectedIndexes) ∧
    (index.isValid = true → index ∉ s.m_view.selectedIndexes →
      (reconcileSelection s index).m_view.selectedIndexes = [index]) ∧
    (index.isValid = true → index ∈ s.m_view.selectedIndexes →
      (reconcileSelection s index).m_view.selectedIndexes =
        (s.m_view.ranges.filter QModelIndex.isValid).filter
          (fun x => !decide (x = index)) ++ [index]) := by
  have hun : index.isValid = true → index ∉ s.m_view.selectedIndexes →
      (reconcileSelection s index).m_view.selectedIndexes = [index] := by
    intro hv hn
    simp [reconcileSelection, hv, hn, selectIndex_selectCurrent,
      (clearSelection_layers s.m_view).1]
  have hsel : index.isValid = true → index ∈ s.m_view.selectedIndexes →
      (reconcileSelection s index).m_view.selectedIndexes =
        (s.m_view.ranges.filter QModelIndex.isValid).filter
          (fun x => !decide (x = index)) ++ [index] := by
    intro hv hm
    simp [reconcileSelection, hv, hm, selectIndex_selectCurrent]
  refine ⟨?_, ?_, hun, hsel⟩
  · intro hv
    have hn : index ∉ s.m_view.selectedIndexes := by
      intro hm
      have := selectedIndexes_isValid _ _ hm
      simp [hv] at this
    have hc := clearSelection_layers s.m_view
    simp [reconcileSelection, hv, hn, QItemSelectionModel.selectedIndexes, hc.1, hc.2,
      QItemSelection.merge]
  · intro hv
    by_cases hm : index ∈ s.m_view.selectedIndexes
    · rw [hsel hv hm]
      simp
    · rw [hun hv hm]
      simp

/-- C9, the code at the failing input.  Items 1 and 3 are selected in one step
(`select` with `ClearAndSelect`, as select-all or a rubber band does), so both
sit in the current-selection layer.  A right click on item 1, which is
selected, skips `clearSelection` and calls `select(index, SelectCurrent)`; the
`Current` flag makes that call replace the current-selection layer, and the
selection shrinks from items 1 and 3 to item 1 alone.  The menu shown is the
single-item menu, not the disabled "Property" menu of a multiple selection. -/
theorem right_click_on_selected_index_shrinks_selection :
    (demoContainer (QItemSelectionModel.empty.select [demoIndex 1, demoIndex 3]
        SelectionFlags.ClearAndSelect)).m_view.selectedIndexes =
      [demoIndex 1, demoIndex 3] ∧
    (reconcileSelection
        (demoContainer (QItemSelectionModel.empty.select [demoIndex 1, demoIndex 3]
          SelectionFlags.ClearAndSelect))
        (demoIndex 1)).m_view.selectedIndexes = [demoIndex 1] ∧
    (buildMenu demoHost (reconcileSelection
        (demoContainer (QItemSelectionModel.empty.select [demoIndex 1, demoIndex 3]
          SelectionFlags.ClearAndSelect))
        (demoIndex 1))).map QAction.text = [.str "Unmount", .str "Property"] := by
  refine ⟨by decide, by decide, by decide⟩

end Peony
